import Mathlib

set_option autoImplicit false

/-!
Verification development for the vertex runtime of the map UDF processor
(pkg/udf/map_udf.go): the partitioned output router built inside
MapUDFProcessor.Start, the per-destination round-robin partition counter
returned by GetPartitionedBufferIdx, and the provisioning / shutdown
control flow of Start itself.

Machine integers are modelled as Nat; the Go conversion int32(v) at the
return of the partition counter closure is modelled explicitly by
int32ofNat, which wraps modulo 2^32 into the signed 32-bit range.
-/

/-- Wrapping conversion of a non-negative Go int to int32, as performed by
the Go expression int32(v) for v greater or equal 0: reduce modulo 2^32 and
reinterpret in the signed range. -/
def int32ofNat (n : Nat) : Int :=
  (((n + 2147483648) % 4294967296 : Nat) : Int) - 2147483648

/-- Vertex kinds, from the v1alpha1 vertex type constants used in
map_udf.go (only ReduceUDF is inspected by the router; the others are
carried for completeness). -/
inductive VertexType where
  | Source
  | MapUDF
  | ReduceUDF
  | Sink
deriving DecidableEq

/-- Modelled from the spec: the logical operator of a tag-match condition
(the spec names AND and OR as the operator alternatives); the concrete
LogicOperator type of the repository is not under src. -/
inductive LogicOperator where
  | and
  | or
deriving DecidableEq

/-- Tag-match condition of an edge: a logical operator over a set of
required tag values (TagConditions in the vertex specification). -/
structure TagConditions where
  Operator : LogicOperator
  Values : List String
deriving DecidableEq

/-- Forwarding conditions of an edge; Tags is optional, matching the Go
pointer field Conditions.Tags. -/
structure ForwardConditions where
  Tags : Option TagConditions
deriving DecidableEq

/-- A topology edge as read by the router: source vertex, destination
vertex, destination vertex kind, destination partition count
(GetToVertexPartitionCount, modelled from the spec as the partition count
attribute of the edge, invariant at least 1), and optional conditions
(the Go pointer field Conditions). -/
structure Edge where
  From : String
  To : String
  ToVertexType : VertexType
  ToVertexPartitionCount : Nat
  Conditions : Option ForwardConditions
deriving DecidableEq

/-- Modelled from the spec: the reserved drop sentinel tag value
(dfv1.MessageTagDrop, declared outside src); the exact string is
irrelevant to the router logic, only its identity is compared. -/
def MessageTagDrop : String := "U+005C__DROP__"

/-- Modelled from the spec: sharedutil.StringSliceContains (declared
outside src) tests membership of a string in a string slice; it is used
for the drop sentinel check. -/
def StringSliceContains (list : List String) (str : String) : Bool :=
  list.contains str

/-- Modelled from the spec: sharedutil.CompareSlice (declared outside src)
applies the logical operator of the edge over the record tags against the
required values: with the AND operator every required value must appear
among the tags, with the OR operator at least one required value must
appear among the tags. -/
def CompareSlice (op : LogicOperator) (tags : List String) (values : List String) : Bool :=
  match op with
  | LogicOperator.and => values.all (fun v => StringSliceContains tags v)
  | LogicOperator.or => values.any (fun v => StringSliceContains tags v)

/-- Modelled from the spec: the Shuffle value built by shuffle.NewShuffle
(declared outside src) for a destination with a given partition count. -/
structure Shuffle where
  vertexName : String
  maxPartitions : Nat
deriving DecidableEq

/-- Modelled from the spec: shuffle.NewShuffle(name, partitionCount). -/
def NewShuffle (vertexName : String) (partitionCount : Nat) : Shuffle :=
  { vertexName := vertexName, maxPartitions := partitionCount }

/-- Modelled from the spec: a deterministic hash of the routing keys used
by the keyed partitioner (a stateless hash-based distribution; the exact
hash is outside src, any fixed deterministic function is faithful). -/
def hashKeys (keys : List String) : Nat :=
  (String.intercalate (":") keys).foldl
    (fun h c => (h * 31 + c.toNat) % 4294967296) 5381

/-- Modelled from the spec: the Shuffle method maps the routing keys of a
record deterministically to a partition index below the partition count
of the destination. -/
def Shuffle.Shuffle (s : Shuffle) (keys : List String) : Int :=
  int32ofNat (hashKeys keys % s.maxPartitions)

/-- One destination assignment produced by the router
(forward.VertexBuffer). -/
structure VertexBuffer where
  ToVertexName : String
  ToVertexPartitionIdx : Int
deriving DecidableEq

/-- The state owned by one partition counter closure: the Go map
messagePerPartitionMap, with absent keys reading as 0 exactly as a Go map
read of a missing key does. -/
abbrev CounterState := String → Nat

/-- The fresh map allocated by GetPartitionedBufferIdx before returning
its closure (map_udf.go line 301). -/
def messagePerPartitionMapInit : CounterState := fun _ => 0

/-- One call of the closure returned by GetPartitionedBufferIdx
(map_udf.go lines 302 to 306): advance the counter of the destination by
1 modulo the partition count, store it back, and return it converted to
int32. The returned pair is (returned index, updated map). -/
def getVertexPartitionIdxCall (m : CounterState) (toVertex : String)
    (toVertexPartitionCount : Nat) : Int × CounterState :=
  let toVertexPartition := (m toVertex + 1) % toVertexPartitionCount
  (int32ofNat toVertexPartition,
    fun v => if v = toVertex then toVertexPartition else m v)

/-- The counter state after n consecutive calls for one destination v
with partition count P, starting from the fresh map. -/
def counterStateAfter (v : String) (P : Nat) : Nat → CounterState
  | 0 => messagePerPartitionMapInit
  | n + 1 => (getVertexPartitionIdxCall (counterStateAfter v P n) v P).2

/-- The key under which the shuffle function of an edge is cached:
fmt.Sprintf with the source and destination names (map_udf.go line
169). -/
def shuffleKey (e : Edge) : String := e.From ++ ":" ++ e.To

/-- One step of the shuffle cache population loop (map_udf.go lines 166
to 171): edges to a reduce vertex with more than one partition get a
fresh Shuffle stored under their key. -/
def shuffleMapStep (acc : String → Option Shuffle) (e : Edge) :
    String → Option Shuffle :=
  if e.ToVertexType = VertexType.ReduceUDF ∧ 1 < e.ToVertexPartitionCount then
    fun k => if k = shuffleKey e then some (NewShuffle e.To e.ToVertexPartitionCount) else acc k
  else acc

/-- The shuffle cache built once per input partition (map_udf.go lines
165 to 171), starting from the empty Go map. -/
def buildShuffleFuncMap (edges : List Edge) : String → Option Shuffle :=
  edges.foldl shuffleMapStep (fun _ => none)

/-- One call of the counter closure as executed inside the router: the
Go modulo at map_udf.go line 303 panics with a division by zero when the
partition count is 0 (Nat modulo is total, so the panic is modelled as
an explicit error value, like the nil method call below), and otherwise
performs getVertexPartitionIdxCall. -/
def getVertexPartitionIdxCallChecked (m : CounterState) (toVertex : String)
    (toVertexPartitionCount : Nat) : Except String (Int × CounterState) :=
  if toVertexPartitionCount = 0 then
    Except.error ("runtime error: integer divide by zero")
  else
    Except.ok (getVertexPartitionIdxCall m toVertex toVertexPartitionCount)

/-- The block of the router that appends one assignment for a matched
edge (map_udf.go lines 185 to 196, duplicated verbatim at lines 199 to
210): shuffle for reduce destinations with more than one partition,
otherwise the partition counter. A missing shuffle cache entry is the Go
nil map lookup followed by a method call on nil, modelled as an error
value, and a counter call with partition count 0 is the Go division by
zero panic, modelled the same way. -/
def emitEdge (sfm : String → Option Shuffle) (keys : List String) (e : Edge)
    (m : CounterState) : Except String (VertexBuffer × CounterState) :=
  if e.ToVertexType = VertexType.ReduceUDF ∧ 1 < e.ToVertexPartitionCount then
    match sfm (shuffleKey e) with
    | none => Except.error ("nil shuffle function for edge " ++ shuffleKey e)
    | some s =>
      Except.ok ({ ToVertexName := e.To, ToVertexPartitionIdx := Shuffle.Shuffle s keys }, m)
  else
    match getVertexPartitionIdxCallChecked m e.To e.ToVertexPartitionCount with
    | Except.error s => Except.error s
    | Except.ok c =>
      Except.ok ({ ToVertexName := e.To, ToVertexPartitionIdx := c.1 }, c.2)

/-- The edge loop of the router (map_udf.go lines 182 to 213), with the
exact nil and emptiness tests of line 184 and the CompareSlice test of
line 198; the accumulated result list and the counter state are threaded
explicitly. -/
def routeLoop (sfm : String → Option Shuffle) (keys tags : List String) :
    List Edge → List VertexBuffer → CounterState →
    Except String (List VertexBuffer × CounterState)
  | [], acc, m => Except.ok (acc, m)
  | e :: rest, acc, m =>
    match e.Conditions with
    | none =>
      match emitEdge sfm keys e m with
      | Except.error s => Except.error s
      | Except.ok (vb, m2) => routeLoop sfm keys tags rest (acc ++ [vb]) m2
    | some fc =>
      match fc.Tags with
      | none =>
        match emitEdge sfm keys e m with
        | Except.error s => Except.error s
        | Except.ok (vb, m2) => routeLoop sfm keys tags rest (acc ++ [vb]) m2
      | some tc =>
        if tc.Values.length = 0 then
          match emitEdge sfm keys e m with
          | Except.error s => Except.error s
          | Except.ok (vb, m2) => routeLoop sfm keys tags rest (acc ++ [vb]) m2
        else if CompareSlice tc.Operator tags tc.Values then
          match emitEdge sfm keys e m with
          | Except.error s => Except.error s
          | Except.ok (vb, m2) => routeLoop sfm keys tags rest (acc ++ [vb]) m2
        else
          routeLoop sfm keys tags rest acc m

/-- The routing function passed to forward.GoWhere (map_udf.go lines 175
to 215): drop check first, then the edge loop; an ok result is the Go
return with nil error, paired with the final counter state. -/
def route (sfm : String → Option Shuffle) (edges : List Edge)
    (keys tags : List String) (m : CounterState) :
    Except String (List VertexBuffer × CounterState) :=
  if StringSliceContains tags MessageTagDrop then Except.ok ([], m)
  else routeLoop sfm keys tags edges [] m

/-- The match predicate of the edge loop, read off the guards of
map_udf.go lines 184 and 198: no conditions, no tag condition, an empty
required-value set, or a successful CompareSlice. -/
def edgeMatched (tags : List String) (e : Edge) : Bool :=
  match e.Conditions with
  | none => true
  | some fc =>
    match fc.Tags with
    | none => true
    | some tc =>
      if tc.Values.length = 0 then true
      else CompareSlice tc.Operator tags tc.Values

/-- The edge loop restricted to edges that are all emitted: used to state
that the router emits exactly one assignment per matched edge. -/
def assignAll (sfm : String → Option Shuffle) (keys : List String) :
    List Edge → List VertexBuffer → CounterState →
    Except String (List VertexBuffer × CounterState)
  | [], acc, m => Except.ok (acc, m)
  | e :: rest, acc, m =>
    match emitEdge sfm keys e m with
    | Except.error s => Except.error s
    | Except.ok (vb, m2) => assignAll sfm keys rest (acc ++ [vb]) m2

/-!
The lifecycle of MapUDFProcessor.Start (map_udf.go lines 50 to 296) is
embedded as a function over an environment of collaborator outcomes
(each fallible collaborator either succeeds or yields an error string),
returning the Go error result of Start together with the ordered trace
of the lifecycle events that Start drives: worker starts, the join of
all partition workers, and the three close loops of the teardown. The
bodies of the partition worker goroutines and the defers are concurrent
or post-return behaviour and are outside the sequential trace.
-/

/-- The buffer backend selector constant for the Redis backend
(dfv1.ISBSvcTypeRedis, modelled from the spec as the backend technology
selector). -/
def ISBSvcTypeRedis : String := "redis"

/-- The buffer backend selector constant for the JetStream backend
(dfv1.ISBSvcTypeJetStream). -/
def ISBSvcTypeJetStream : String := "jetstream"

/-- Observable lifecycle events of Start, in the order Start drives
them. -/
inductive Event where
  | workerStarted (partition : String)
  | joinedAllWorkers
  | pmClosed (name : String)
  | publisherClosed (name : String)
  | logPublisherCloseError (name : String)
  | storeClosed (name : String)
deriving DecidableEq

/-- Outcomes of the external collaborators invoked by Start: every
fallible call is an Except value, list-valued builders also carry the
names of the values they build, and the per-partition forwarder
constructor is a function of the partition name. -/
structure Env where
  newClientPool : Except String Unit
  isbSvcType : String
  watermarkDisabled : Bool
  toBuffers : List String
  ownedBuffers : List String
  buildRedisBuffers : Except String Unit
  buildProcessorManagers : Except String (List String)
  buildToVertexWatermarkStores : Except String (List String)
  buildJetStreamBuffers : Except String Unit
  mapUdfStreamEnabled : Except String Bool
  newMapStreamClient : Except String Unit
  mapStreamWaitUntilReady : Except String Unit
  newMapClient : Except String Unit
  mapWaitUntilReady : Except String Unit
  newInterStepDataForward : String → Except String Unit
  metricsServerStart : Except String Unit

/-- Boolean success test of an Except value. -/
def okB {α : Type} : Except String α → Bool
  | Except.ok _ => true
  | Except.error _ => false

/-- The backend switch of Start (map_udf.go lines 79 to 118), reified as
the triple (processor manager names, publisher names, store names) it
leaves in scope: Redis and the disabled-watermark JetStream branch keep
the no-op publishers built from the outgoing buffer list (line 77 and
line 91) and no managers or stores; the enabled JetStream branch builds
managers, stores, and one publisher per store (lines 94 to 114). -/
def switchBranch (env : Env) : Except String (List String × List String × List String) :=
  if env.isbSvcType = ISBSvcTypeRedis then
    match env.buildRedisBuffers with
    | Except.error e => Except.error e
    | Except.ok _ => Except.ok ([], env.toBuffers, [])
  else if env.isbSvcType = ISBSvcTypeJetStream then
    if env.watermarkDisabled then Except.ok ([], env.toBuffers, [])
    else
      match env.buildProcessorManagers with
      | Except.error e => Except.error ("failed to build processor manager: " ++ e)
      | Except.ok pms =>
        match env.buildToVertexWatermarkStores with
        | Except.error e => Except.error e
        | Except.ok sts =>
          match env.buildJetStreamBuffers with
          | Except.error e => Except.error e
          | Except.ok _ => Except.ok (pms, sts, sts)
  else Except.error ("unrecognized isbsvc type " ++ env.isbSvcType)

/-- The handler bootstrap of Start (map_udf.go lines 126 to 161): create
the map stream client or the map client according to the streaming flag,
then run its readiness check. -/
def handlerInit (env : Env) (stream : Bool) : Except String Unit :=
  if stream then
    match env.newMapStreamClient with
    | Except.error e => Except.error ("failed to create map stream client, " ++ e)
    | Except.ok _ =>
      match env.mapStreamWaitUntilReady with
      | Except.error e => Except.error ("failed on map stream UDF readiness check, " ++ e)
      | Except.ok _ => Except.ok ()
  else
    match env.newMapClient with
    | Except.error e => Except.error ("failed to create map client, " ++ e)
    | Except.ok _ =>
      match env.mapWaitUntilReady with
      | Except.error e => Except.error ("failed on map UDF readiness check, " ++ e)
      | Except.ok _ => Except.ok ()

/-- The per-partition loop of Start (map_udf.go lines 163 to 255): for
each input partition, construct the forwarder (an error aborts Start,
leaving the workers of the earlier partitions already started), then
start the partition worker goroutine. -/
def startWorkers (ctor : String → Except String Unit) :
    List String → Except String Unit × List Event
  | [] => (Except.ok (), [])
  | p :: rest =>
    match ctor p with
    | Except.error e => (Except.error e, [])
    | Except.ok _ =>
      let r := startWorkers ctor rest
      (r.1, Event.workerStarted p :: r.2)

/-- The publisher close loop of the teardown (map_udf.go lines 281 to
286): every publisher is closed; a close error is logged and the loop
continues. -/
def closePublishers (pubs : List String) (pubCloseErr : String → Bool) : List Event :=
  match pubs with
  | [] => []
  | p :: rest =>
    Event.publisherClosed p ::
      ((if pubCloseErr p then [Event.logPublisherCloseError p] else []) ++
        closePublishers rest pubCloseErr)

/-- The teardown of Start (map_udf.go lines 274 to 292): close every
processor manager, then every watermark publisher (logging close
errors), then every watermark store (discarding close errors, as the Go
code assigns the close result to the blank identifier). -/
def teardown (pms pubs sts : List String) (pubCloseErr : String → Bool) : List Event :=
  pms.map Event.pmClosed ++ closePublishers pubs pubCloseErr ++ sts.map Event.storeClosed

/-- The sequential control flow of MapUDFProcessor.Start (map_udf.go
lines 50 to 296) over an environment of collaborator outcomes. The
pubCloseErr and storeCloseErr arguments choose which publisher and store
closes fail during teardown; the store close result is discarded by the
code, so storeCloseErr is observationally inert. The result is the Go
error return of Start paired with the ordered event trace. -/
def Start (env : Env) (pubCloseErr storeCloseErr : String → Bool) :
    Except String Unit × List Event :=
  match env.newClientPool with
  | Except.error e => (Except.error ("failed to create a new NATS client pool: " ++ e), [])
  | Except.ok _ =>
    match switchBranch env with
    | Except.error e => (Except.error e, [])
    | Except.ok (pms, pubs, sts) =>
      match env.mapUdfStreamEnabled with
      | Except.error e => (Except.error ("failed to parse UDF map streaming metadata, " ++ e), [])
      | Except.ok stream =>
        match handlerInit env stream with
        | Except.error e => (Except.error e, [])
        | Except.ok _ =>
          match startWorkers env.newInterStepDataForward env.ownedBuffers with
          | (Except.error e, tr) => (Except.error e, tr)
          | (Except.ok _, tr) =>
            match env.metricsServerStart with
            | Except.error e =>
              (Except.error ("failed to start metrics server, error: " ++ e), tr)
            | Except.ok _ =>
              (Except.ok (),
                tr ++ Event.joinedAllWorkers :: teardown pms pubs sts pubCloseErr)

/-- The processor manager names left in scope when Start reaches its
teardown: only the JetStream branch with watermarking enabled builds
any. -/
def runManagers (env : Env) : List String :=
  if env.isbSvcType = ISBSvcTypeJetStream ∧ env.watermarkDisabled = false then
    match env.buildProcessorManagers with
    | Except.ok pms => pms
    | Except.error _ => []
  else []

/-- The watermark store names left in scope when Start reaches its
teardown. -/
def runStores (env : Env) : List String :=
  if env.isbSvcType = ISBSvcTypeJetStream ∧ env.watermarkDisabled = false then
    match env.buildToVertexWatermarkStores with
    | Except.ok sts => sts
    | Except.error _ => []
  else []

/-- The watermark publisher names left in scope when Start reaches its
teardown: the publishers built from the stores in the enabled JetStream
branch, and the no-op publishers of the outgoing buffers otherwise. -/
def runPublishers (env : Env) : List String :=
  if env.isbSvcType = ISBSvcTypeJetStream ∧ env.watermarkDisabled = false then
    runStores env
  else env.toBuffers

/-- Success of the backend switch, expressed over the environment
fields. -/
def branchOk (env : Env) : Bool :=
  if env.isbSvcType = ISBSvcTypeRedis then okB env.buildRedisBuffers
  else if env.isbSvcType = ISBSvcTypeJetStream then
    (env.watermarkDisabled ||
      (okB env.buildProcessorManagers && okB env.buildToVertexWatermarkStores &&
        okB env.buildJetStreamBuffers))
  else false

/-- Success of the handler bootstrap, expressed over the environment
fields. -/
def handlerOk (env : Env) (stream : Bool) : Bool :=
  if stream then okB env.newMapStreamClient && okB env.mapStreamWaitUntilReady
  else okB env.newMapClient && okB env.mapWaitUntilReady

/-- Success of every provisioning step of Start that precedes the
per-partition loop: client pool, backend switch, streaming flag parse,
handler creation and readiness. -/
def preLoopOk (env : Env) : Bool :=
  okB env.newClientPool && branchOk env &&
    (match env.mapUdfStreamEnabled with
     | Except.error _ => false
     | Except.ok s => handlerOk env s)

/-- Events that are not error log lines. -/
def nonLogEvent : Event → Bool
  | Event.logPublisherCloseError _ => false
  | _ => true

/-!
Concrete fixtures used by witnesses and counterexamples.
-/

/-- Name of a destination used in counter witnesses. -/
def outName : String := "out"

/-- Name of a destination used in counter counterexamples. -/
def dstName : String := "dst"

/-- Name of the first input partition of the fixture environments. -/
def partition0 : String := "p0"

/-- Name of the reduce destination of the fixture edges. -/
def redName : String := "red"

/-- An unconditioned edge to a plain (non reduce) destination with two
partitions. -/
def edgePlain : Edge :=
  { From := "v", To := "plain", ToVertexType := VertexType.MapUDF,
    ToVertexPartitionCount := 2, Conditions := none }

/-- An unconditioned edge to a reduce destination with four
partitions. -/
def edgeReduce : Edge :=
  { From := "v", To := "red", ToVertexType := VertexType.ReduceUDF,
    ToVertexPartitionCount := 4, Conditions := none }

/-- An edge whose condition requires both tags t1 and t2. -/
def edgeAnd : Edge :=
  { From := "v", To := "andv", ToVertexType := VertexType.MapUDF,
    ToVertexPartitionCount := 1,
    Conditions := some { Tags := some { Operator := LogicOperator.and, Values := ["t1", "t2"] } } }

/-- An edge whose condition requires at least one of the tags t1 and
t2. -/
def edgeOr : Edge :=
  { From := "v", To := "orv", ToVertexType := VertexType.MapUDF,
    ToVertexPartitionCount := 1,
    Conditions := some { Tags := some { Operator := LogicOperator.or, Values := ["t1", "t2"] } } }

/-- An environment in which every collaborator succeeds, with the Redis
backend and one input partition. -/
def envRedisOk : Env :=
  { newClientPool := Except.ok (), isbSvcType := ISBSvcTypeRedis,
    watermarkDisabled := false, toBuffers := ["b1"], ownedBuffers := ["p0"],
    buildRedisBuffers := Except.ok (), buildProcessorManagers := Except.ok [],
    buildToVertexWatermarkStores := Except.ok [], buildJetStreamBuffers := Except.ok (),
    mapUdfStreamEnabled := Except.ok false, newMapStreamClient := Except.ok (),
    mapStreamWaitUntilReady := Except.ok (), newMapClient := Except.ok (),
    mapWaitUntilReady := Except.ok (),
    newInterStepDataForward := fun _ => Except.ok (),
    metricsServerStart := Except.ok () }

/-- An environment with two input partitions in which the forwarder of
the second partition fails to construct. -/
def envForwarderFail : Env :=
  { envRedisOk with
    ownedBuffers := ["p0", "p1"],
    newInterStepDataForward :=
      fun p => if p = "p0" then Except.ok () else Except.error ("failed to construct forwarder") }

/-- An all-success environment with the JetStream backend, watermarking
enabled, one processor manager and one watermark store. -/
def envJetStreamOk : Env :=
  { envRedisOk with
    isbSvcType := ISBSvcTypeJetStream,
    buildProcessorManagers := Except.ok ["pm1"],
    buildToVertexWatermarkStores := Except.ok ["st1"] }

/-!
Helper lemmas about the partition counter.
-/

/-- Stepping a residue by one commutes with the modulus. -/
lemma mod_succ_mod (n P : Nat) : (n % P + 1) % P = (n + 1) % P := by
  conv_rhs => rw [Nat.add_mod]
  rw [Nat.add_mod (n % P) 1, Nat.mod_mod_of_dvd n (dvd_refl P)]

/-- The int32 conversion is the identity below 2^31. -/
lemma int32ofNat_of_lt {n : Nat} (h : n < 2147483648) : int32ofNat n = (n : Int) := by
  unfold int32ofNat
  rw [Nat.mod_eq_of_lt (by omega)]
  push_cast
  omega

/-- After n consecutive calls for destination v with partition count P,
the stored counter of v is n modulo P. -/
lemma counterStateAfter_self (v : String) (P : Nat) :
    ∀ n, counterStateAfter v P n v = n % P := by
  intro n
  induction n with
  | zero => simp [counterStateAfter, messagePerPartitionMapInit]
  | succ k ih =>
    simp only [counterStateAfter, getVertexPartitionIdxCall]
    simp [ih, mod_succ_mod]

/-- A call for one destination leaves the counters of all other
destinations unchanged. -/
lemma counterStateAfter_other (v w : String) (P : Nat) (hw : w ≠ v) :
    ∀ n, counterStateAfter v P n w = 0 := by
  intro n
  induction n with
  | zero => simp [counterStateAfter, messagePerPartitionMapInit]
  | succ k ih =>
    simp only [counterStateAfter, getVertexPartitionIdxCall]
    simp [hw, ih]

/-- C2 counterexample: the claim quantifies over every partition count P
at least 1, but the Go return converts the counter value to int32; with
P = 2^31 + 1 the call number 2^31 must return 2^31 mod P = 2^31 by the
claimed sequence, while the code returns the wrapped value -2^31. -/
theorem c2_partition_counter_sequence_cex :
    (getVertexPartitionIdxCall (counterStateAfter outName 2147483649 2147483647)
        outName 2147483649).1
      ≠ (((2147483647 + 1) % 2147483649 : Nat) : Int) := by
  simp only [getVertexPartitionIdxCall, counterStateAfter_self, mod_succ_mod]
  decide

/-- C2 (amended: partition count at most 2^31, so that the int32
conversion is the identity): for every destination v with partition
count P in [1, 2^31], the call number n + 1 of the Partition Counter for
v returns (n + 1) mod P; hence consecutive calls yield 1 mod P,
2 mod P, and so on, round-robin with period P, and the first call for a
fresh destination returns 1 mod P rather than 0. -/
theorem c2_partition_counter_sequence (v : String) (P n : Nat)
    (h1 : 1 ≤ P) (h2 : P ≤ 2147483648) :
    (getVertexPartitionIdxCall (counterStateAfter v P n) v P).1
      = (((n + 1) % P : Nat) : Int) := by
  simp only [getVertexPartitionIdxCall, counterStateAfter_self, mod_succ_mod]
  exact int32ofNat_of_lt (lt_of_lt_of_le (Nat.mod_lt _ (by omega)) h2)

/-- Witness for C2: with P = 3 the three consecutive calls return 1, 2
and 0. -/
theorem c2_partition_counter_sequence_witness :
    (getVertexPartitionIdxCall (counterStateAfter outName 3 0) outName 3).1
        = (((0 + 1) % 3 : Nat) : Int)
    ∧ (getVertexPartitionIdxCall (counterStateAfter outName 3 1) outName 3).1
        = (((1 + 1) % 3 : Nat) : Int)
    ∧ (getVertexPartitionIdxCall (counterStateAfter outName 3 2) outName 3).1
        = (((2 + 1) % 3 : Nat) : Int) :=
  ⟨c2_partition_counter_sequence outName 3 0 (by decide) (by decide),
   c2_partition_counter_sequence outName 3 1 (by decide) (by decide),
   c2_partition_counter_sequence outName 3 2 (by decide) (by decide)⟩

/-- C10 counterexample: with partition count P = 2^31 + 1 (at least 1,
as the claim requires) the call number 2^31 of the Partition Counter
returns a negative index, outside the claimed range [0, P). -/
theorem c10_partition_counter_range_cex :
    (getVertexPartitionIdxCall (counterStateAfter dstName 2147483649 2147483647)
        dstName 2147483649).1 < 0 := by
  simp only [getVertexPartitionIdxCall, counterStateAfter_self, mod_succ_mod]
  decide

/-- C10 (amended: partition count at most 2^31, so that the int32
conversion is the identity): for every counter state and every
destination v with partition count P in [1, 2^31], a call of the
Partition Counter divides by the nonzero P, returns an index in
[0, P), and leaves the stored counter of every other destination
unchanged. -/
theorem c10_partition_counter_range_frame (m : CounterState) (v : String)
    (P : Nat) (h1 : 1 ≤ P) (h2 : P ≤ 2147483648) :
    (0 ≤ (getVertexPartitionIdxCall m v P).1
      ∧ (getVertexPartitionIdxCall m v P).1 < (P : Int))
    ∧ (∀ w, w ≠ v → (getVertexPartitionIdxCall m v P).2 w = m w) := by
  have hlt : (m v + 1) % P < P := Nat.mod_lt _ (by omega)
  refine ⟨⟨?_, ?_⟩, ?_⟩
  · simp only [getVertexPartitionIdxCall]
    rw [int32ofNat_of_lt (by omega)]
    exact Int.ofNat_nonneg _
  · simp only [getVertexPartitionIdxCall]
    rw [int32ofNat_of_lt (by omega)]
    exact_mod_cast hlt
  · intro w hw
    simp only [getVertexPartitionIdxCall]
    simp [hw]

/-- Witness for C10 at a fresh counter, destination a, partition count
2: the returned index is in range and the counter of destination b is
untouched. -/
theorem c10_partition_counter_range_frame_witness :
    (0 ≤ (getVertexPartitionIdxCall messagePerPartitionMapInit outName 2).1
      ∧ (getVertexPartitionIdxCall messagePerPartitionMapInit outName 2).1 < (2 : Int))
    ∧ (∀ w, w ≠ outName →
        (getVertexPartitionIdxCall messagePerPartitionMapInit outName 2).2 w
          = messagePerPartitionMapInit w) :=
  c10_partition_counter_range_frame messagePerPartitionMapInit outName 2 (by decide) (by decide)

/-!
Helper lemmas about the router.
-/

/-- The edge loop emits exactly the edges accepted by the match
predicate, in order, and skips the rest: it coincides with the
unconditional emit loop on the filtered edge list. -/
lemma routeLoop_eq_assignAll (sfm : String → Option Shuffle) (keys tags : List String) :
    ∀ (es : List Edge) (acc : List VertexBuffer) (m : CounterState),
      routeLoop sfm keys tags es acc m
        = assignAll sfm keys (es.filter (edgeMatched tags)) acc m := by
  intro es
  induction es with
  | nil => intro acc m; rfl
  | cons e rest ih =>
    intro acc m
    cases hc : e.Conditions with
    | none =>
      simp only [routeLoop, List.filter_cons, edgeMatched, hc, if_true, assignAll]
      cases he : emitEdge sfm keys e m with
      | error s => rfl
      | ok vm => obtain ⟨vb, m2⟩ := vm; exact ih (acc ++ [vb]) m2
    | some fc =>
      cases ht : fc.Tags with
      | none =>
        simp only [routeLoop, List.filter_cons, edgeMatched, hc, ht, if_true, assignAll]
        cases he : emitEdge sfm keys e m with
        | error s => rfl
        | ok vm => obtain ⟨vb, m2⟩ := vm; exact ih (acc ++ [vb]) m2
      | some tc =>
        by_cases hl : tc.Values.length = 0
        · simp only [routeLoop, List.filter_cons, edgeMatched, hc, ht, hl, if_true, assignAll]
          cases he : emitEdge sfm keys e m with
          | error s => rfl
          | ok vm => obtain ⟨vb, m2⟩ := vm; exact ih (acc ++ [vb]) m2
        · by_cases hcs : CompareSlice tc.Operator tags tc.Values
          · simp only [routeLoop, List.filter_cons, edgeMatched, hc, ht, hl, hcs, if_true,
              if_false, assignAll]
            cases he : emitEdge sfm keys e m with
            | error s => rfl
            | ok vm => obtain ⟨vb, m2⟩ := vm; exact ih (acc ++ [vb]) m2
          · simp only [routeLoop, List.filter_cons, edgeMatched, hc, ht, hl, hcs, if_false]
            exact ih acc m

/-- The unconditional emit loop appends exactly one assignment per
edge. -/
lemma assignAll_length (sfm : String → Option Shuffle) (keys : List String) :
    ∀ (es : List Edge) (acc : List VertexBuffer) (m : CounterState)
      (out : List VertexBuffer) (m2 : CounterState),
      assignAll sfm keys es acc m = Except.ok (out, m2) →
      out.length = acc.length + es.length := by
  intro es
  induction es with
  | nil =>
    intro acc m out m2 h
    simp only [assignAll, Except.ok.injEq, Prod.mk.injEq] at h
    simp [← h.1]
  | cons e rest ih =>
    intro acc m out m2 h
    simp only [assignAll] at h
    cases he : emitEdge sfm keys e m with
    | error s => rw [he] at h; exact absurd h (by simp)
    | ok vm =>
      rw [he] at h
      obtain ⟨vb, m3⟩ := vm
      have := ih (acc ++ [vb]) m3 out m2 h
      simp only [List.length_append, List.length_cons, List.length_nil] at this ⊢
      omega

/-- On the shuffle branch the emitted partition index is the cached
shuffle function applied to the keys, and the counter state is left
untouched. -/
lemma emitEdge_shuffle (sfm : String → Option Shuffle) (keys : List String)
    (e : Edge) (m : CounterState) (s : Shuffle)
    (hg : e.ToVertexType = VertexType.ReduceUDF ∧ 1 < e.ToVertexPartitionCount)
    (hs : sfm (shuffleKey e) = some s) :
    emitEdge sfm keys e m
      = Except.ok ({ ToVertexName := e.To, ToVertexPartitionIdx := Shuffle.Shuffle s keys }, m) := by
  simp only [emitEdge, if_pos hg, hs]

/-- Off the shuffle branch, for a nonzero partition count, the emitted
partition index comes from the partition counter of the destination,
whose state is advanced. -/
lemma emitEdge_counter (sfm : String → Option Shuffle) (keys : List String)
    (e : Edge) (m : CounterState)
    (hg : ¬ (e.ToVertexType = VertexType.ReduceUDF ∧ 1 < e.ToVertexPartitionCount))
    (hc : e.ToVertexPartitionCount ≠ 0) :
    emitEdge sfm keys e m
      = Except.ok
          ({ ToVertexName := e.To,
             ToVertexPartitionIdx :=
               (getVertexPartitionIdxCall m e.To e.ToVertexPartitionCount).1 },
           (getVertexPartitionIdxCall m e.To e.ToVertexPartitionCount).2) := by
  simp only [emitEdge, if_neg hg, getVertexPartitionIdxCallChecked, if_neg hc]

/-- The emit block succeeds whenever the shuffle cache covers the edge
on the shuffle branch and the partition count is at least 1 (the data
model invariant), so that the counter branch cannot divide by zero. -/
lemma emitEdge_total (sfm : String → Option Shuffle) (keys : List String)
    (e : Edge) (m : CounterState)
    (h : e.ToVertexType = VertexType.ReduceUDF → 1 < e.ToVertexPartitionCount →
      (sfm (shuffleKey e)).isSome = true)
    (hc : 1 ≤ e.ToVertexPartitionCount) :
    ∃ r, emitEdge sfm keys e m = Except.ok r := by
  by_cases hg : e.ToVertexType = VertexType.ReduceUDF ∧ 1 < e.ToVertexPartitionCount
  · have hsome := h hg.1 hg.2
    cases hs : sfm (shuffleKey e) with
    | none => rw [hs] at hsome; exact absurd hsome (by simp)
    | some s => exact ⟨_, emitEdge_shuffle sfm keys e m s hg hs⟩
  · exact ⟨_, emitEdge_counter sfm keys e m hg (by omega)⟩

/-- A cache entry, once present, survives the remaining steps of the
population fold. -/
lemma shuffleMapFold_preserves (k : String) :
    ∀ (es : List Edge) (init : String → Option Shuffle),
      (init k).isSome = true → ((es.foldl shuffleMapStep init) k).isSome = true := by
  intro es
  induction es with
  | nil => intro init h; exact h
  | cons e rest ih =>
    intro init h
    simp only [List.foldl_cons]
    apply ih
    simp only [shuffleMapStep]
    by_cases hg : e.ToVertexType = VertexType.ReduceUDF ∧ 1 < e.ToVertexPartitionCount
    · rw [if_pos hg]
      by_cases hk : k = shuffleKey e
      · simp [hk]
      · simp [hk, h]
    · rw [if_neg hg]; exact h

/-- The population fold stores an entry for every shuffle-branch edge of
the list, from any starting cache. -/
lemma shuffleMapFold_covers (e : Edge)
    (ht : e.ToVertexType = VertexType.ReduceUDF)
    (hp : 1 < e.ToVertexPartitionCount) :
    ∀ (es : List Edge) (init : String → Option Shuffle), e ∈ es →
      ((es.foldl shuffleMapStep init) (shuffleKey e)).isSome = true := by
  intro es
  induction es with
  | nil => intro init h; cases h
  | cons e2 rest ih =>
    intro init hmem
    simp only [List.foldl_cons]
    rcases List.mem_cons.mp hmem with he | he
    · subst he
      apply shuffleMapFold_preserves
      simp only [shuffleMapStep, if_pos (And.intro ht hp)]
      simp
    · exact ih _ he

/-- The population loop of the shuffle cache covers every edge on which
the router takes the shuffle branch. -/
lemma buildShuffleFuncMap_covers (edges : List Edge) (e : Edge)
    (hmem : e ∈ edges)
    (ht : e.ToVertexType = VertexType.ReduceUDF)
    (hp : 1 < e.ToVertexPartitionCount) :
    ((buildShuffleFuncMap edges) (shuffleKey e)).isSome = true :=
  shuffleMapFold_covers e ht hp edges (fun _ => none) hmem

/-- The unconditional emit loop cannot fail when the shuffle cache
covers all shuffle-branch edges of the list. -/
lemma assignAll_total (sfm : String → Option Shuffle) (keys : List String) :
    ∀ (es : List Edge) (acc : List VertexBuffer) (m : CounterState),
      (∀ e ∈ es, e.ToVertexType = VertexType.ReduceUDF → 1 < e.ToVertexPartitionCount →
        (sfm (shuffleKey e)).isSome = true) →
      (∀ e ∈ es, 1 ≤ e.ToVertexPartitionCount) →
      ∃ out, assignAll sfm keys es acc m = Except.ok out := by
  intro es
  induction es with
  | nil => intro acc m _ _; exact ⟨(acc, m), rfl⟩
  | cons e rest ih =>
    intro acc m hcov hcnt
    obtain ⟨⟨vb, m2⟩, he⟩ :=
      emitEdge_total sfm keys e m (hcov e (List.mem_cons_self e rest))
        (hcnt e (List.mem_cons_self e rest))
    obtain ⟨out, hrest⟩ :=
      ih (acc ++ [vb]) m2 (fun x hx => hcov x (List.mem_cons_of_mem e hx))
        (fun x hx => hcnt x (List.mem_cons_of_mem e hx))
    exact ⟨out, by simp only [assignAll, he]; exact hrest⟩

/-- The route function on a single matched edge, for a record that is
not dropped, reduces to the emit block of that edge. -/
lemma route_single (sfm : String → Option Shuffle) (e : Edge)
    (keys tags : List String) (m : CounterState)
    (hdrop : StringSliceContains tags MessageTagDrop = false)
    (hmatch : edgeMatched tags e = true) :
    route sfm [e] keys tags m
      = match emitEdge sfm keys e m with
        | Except.error s => Except.error s
        | Except.ok (vb, m2) => Except.ok ([vb], m2) := by
  rw [route, if_neg (by simp [hdrop]), routeLoop_eq_assignAll]
  simp only [List.filter_cons, hmatch, if_true, List.filter_nil]
  cases he : emitEdge sfm keys e m with
  | error s => simp [assignAll, he]
  | ok vm => obtain ⟨vb, m2⟩ := vm; simp [assignAll, he]

/-- C1: for every record whose tags contain the drop sentinel, route
returns the empty assignment set with a nil error, for every key list,
every edge list and every shuffle cache, and the counter state is
returned untouched: no edge is evaluated, no Partition Counter state is
advanced (the Shuffle Function is stateless). -/
theorem c1_route_drop_empty (sfm : String → Option Shuffle) (edges : List Edge)
    (keys tags : List String) (m : CounterState)
    (h : StringSliceContains tags MessageTagDrop = true) :
    route sfm edges keys tags m = Except.ok ([], m) := by
  simp [route, h]

/-- Witness for C1: a dropped record against a two edge topology. -/
theorem c1_route_drop_empty_witness :
    StringSliceContains [MessageTagDrop] MessageTagDrop = true
    ∧ route (buildShuffleFuncMap [edgeReduce, edgePlain]) [edgeReduce, edgePlain]
        ["k1"] [MessageTagDrop] messagePerPartitionMapInit
      = Except.ok ([], messagePerPartitionMapInit) :=
  ⟨rfl,
   c1_route_drop_empty (buildShuffleFuncMap [edgeReduce, edgePlain]) [edgeReduce, edgePlain]
     ["k1"] [MessageTagDrop] messagePerPartitionMapInit rfl⟩

/-- C3: for a non dropped record, route emits exactly one assignment per
matched edge, in edge order, where an edge is matched exactly when it
has no conditions, a nil tag condition, an empty required-value set, or
its logical operator applied over the record tags against the required
values succeeds (the predicate edgeMatched); unmatched edges contribute
nothing. -/
theorem c3_route_edge_match (sfm : String → Option Shuffle) (edges : List Edge)
    (keys tags : List String) (m : CounterState)
    (hdrop : StringSliceContains tags MessageTagDrop = false) :
    route sfm edges keys tags m
      = assignAll sfm keys (edges.filter (edgeMatched tags)) [] m
    ∧ (∀ out m2, route sfm edges keys tags m = Except.ok (out, m2) →
        out.length = (edges.filter (edgeMatched tags)).length) := by
  have h0 : route sfm edges keys tags m = routeLoop sfm keys tags edges [] m := by
    simp [route, hdrop]
  refine ⟨by rw [h0, routeLoop_eq_assignAll], ?_⟩
  intro out m2 h
  rw [h0, routeLoop_eq_assignAll] at h
  simpa using assignAll_length sfm keys _ [] m out m2 h

/-- Witness for C3: tags [t1] against an unconditioned edge (matched),
an AND edge requiring t1 and t2 (unmatched), and an OR edge requiring t1
or t2 (matched). -/
theorem c3_route_edge_match_witness :
    StringSliceContains ["t1"] MessageTagDrop = false
    ∧ (route (fun _ => none) [edgePlain, edgeAnd, edgeOr] ["k1"] ["t1"]
          messagePerPartitionMapInit
        = assignAll (fun _ => none) ["k1"]
            (List.filter (edgeMatched ["t1"]) [edgePlain, edgeAnd, edgeOr]) []
            messagePerPartitionMapInit
      ∧ (∀ out m2,
          route (fun _ => none) [edgePlain, edgeAnd, edgeOr] ["k1"] ["t1"]
              messagePerPartitionMapInit
            = Except.ok (out, m2) →
          out.length
            = (List.filter (edgeMatched ["t1"]) [edgePlain, edgeAnd, edgeOr]).length)) :=
  ⟨rfl,
   c3_route_edge_match (fun _ => none) [edgePlain, edgeAnd, edgeOr] ["k1"] ["t1"]
     messagePerPartitionMapInit rfl⟩

/-- C4: for a single matched edge of a non dropped record, the emitted
partition index is the cached Shuffle Function applied to the keys
exactly when the destination is a reduce vertex with more than one
partition (the counter state is then untouched); in every other case,
for the nonzero partition counts of the data model, it is the Partition
Counter of the destination name, whose state is advanced. The shuffle
cache hypothesis is only needed on the shuffle branch; the counter
branch holds for every cache, including the program cache, which never
stores an entry for such an edge. -/
theorem c4_route_partition_choice (sfm : String → Option Shuffle) (e : Edge)
    (keys tags : List String) (m : CounterState)
    (hdrop : StringSliceContains tags MessageTagDrop = false)
    (hmatch : edgeMatched tags e = true) :
    (∀ s, sfm (shuffleKey e) = some s →
      e.ToVertexType = VertexType.ReduceUDF → 1 < e.ToVertexPartitionCount →
      route sfm [e] keys tags m
        = Except.ok
            ([{ ToVertexName := e.To, ToVertexPartitionIdx := Shuffle.Shuffle s keys }], m))
    ∧ (¬ (e.ToVertexType = VertexType.ReduceUDF ∧ 1 < e.ToVertexPartitionCount) →
      1 ≤ e.ToVertexPartitionCount →
      route sfm [e] keys tags m
        = Except.ok
            ([{ ToVertexName := e.To,
                ToVertexPartitionIdx :=
                  (getVertexPartitionIdxCall m e.To e.ToVertexPartitionCount).1 }],
              (getVertexPartitionIdxCall m e.To e.ToVertexPartitionCount).2)) := by
  constructor
  · intro s hs ht hp
    rw [route_single sfm e keys tags m hdrop hmatch,
      emitEdge_shuffle sfm keys e m s (And.intro ht hp) hs]
  · intro hg hc
    rw [route_single sfm e keys tags m hdrop hmatch,
      emitEdge_counter sfm keys e m hg (by omega)]

/-- Witness for C4 exercising both branches against the program cache
built from both edges: the reduce edge with four partitions takes the
shuffle, and the plain edge with two partitions takes the counter. -/
theorem c4_route_partition_choice_witness :
    route (buildShuffleFuncMap [edgeReduce, edgePlain]) [edgeReduce] ["k1"] []
        messagePerPartitionMapInit
      = Except.ok
          ([{ ToVertexName := edgeReduce.To,
              ToVertexPartitionIdx := Shuffle.Shuffle (NewShuffle redName 4) ["k1"] }],
            messagePerPartitionMapInit)
    ∧ route (buildShuffleFuncMap [edgeReduce, edgePlain]) [edgePlain] ["k1"] []
        messagePerPartitionMapInit
      = Except.ok
          ([{ ToVertexName := edgePlain.To,
              ToVertexPartitionIdx :=
                (getVertexPartitionIdxCall messagePerPartitionMapInit edgePlain.To
                  edgePlain.ToVertexPartitionCount).1 }],
            (getVertexPartitionIdxCall messagePerPartitionMapInit edgePlain.To
              edgePlain.ToVertexPartitionCount).2) :=
  ⟨(c4_route_partition_choice (buildShuffleFuncMap [edgeReduce, edgePlain]) edgeReduce
      ["k1"] [] messagePerPartitionMapInit rfl rfl).1
      (NewShuffle redName 4) (by decide) rfl (by decide),
   (c4_route_partition_choice (buildShuffleFuncMap [edgeReduce, edgePlain]) edgePlain
      ["k1"] [] messagePerPartitionMapInit rfl rfl).2 (by decide) (by decide)⟩

/-- C8: with the shuffle cache populated from the same edge list the
router iterates over, and every destination partition count at least 1
(the data model invariant, enforced at topology load), route never
fails: the shuffle branch always finds a cache entry, the counter branch
never divides by zero, and the function returns an ok result (the Go nil
error) for every keys, tags and counter state. -/
theorem c8_route_never_fails (edges : List Edge) (keys tags : List String)
    (m : CounterState)
    (hcnt : ∀ e ∈ edges, 1 ≤ e.ToVertexPartitionCount) :
    ∃ out, route (buildShuffleFuncMap edges) edges keys tags m = Except.ok out := by
  by_cases hdrop : StringSliceContains tags MessageTagDrop = true
  · exact ⟨([], m), by simp [route, hdrop]⟩
  · simp only [Bool.not_eq_true] at hdrop
    have h0 : route (buildShuffleFuncMap edges) edges keys tags m
        = routeLoop (buildShuffleFuncMap edges) keys tags edges [] m := by
      simp [route, hdrop]
    rw [h0, routeLoop_eq_assignAll]
    apply assignAll_total
    · intro e he ht hp
      exact buildShuffleFuncMap_covers edges e (List.mem_of_mem_filter he) ht hp
    · intro e he
      exact hcnt e (List.mem_of_mem_filter he)

/-- Witness for C8: a four edge topology (reduce, plain, AND, OR) with
partition counts 4, 2, 1, 1, a non dropped record with one tag. -/
theorem c8_route_never_fails_witness :
    (∀ e ∈ [edgeReduce, edgePlain, edgeAnd, edgeOr], 1 ≤ e.ToVertexPartitionCount)
    ∧ ∃ out,
        route (buildShuffleFuncMap [edgeReduce, edgePlain, edgeAnd, edgeOr])
            [edgeReduce, edgePlain, edgeAnd, edgeOr] ["k1"] ["t1"]
            messagePerPartitionMapInit
          = Except.ok out :=
  ⟨by decide,
   c8_route_never_fails [edgeReduce, edgePlain, edgeAnd, edgeOr] ["k1"] ["t1"]
     messagePerPartitionMapInit (by decide)⟩

/-- C9: the router is a pure function of the shuffle cache, edge list,
keys, tags and counter state, so identical inputs give identical
results by construction; substantively, for an edge to a reduce
destination with more than one partition, two records with the same keys
routed through that edge receive the same destination partition even
with different tags and different counter states, and neither call
touches the counter state. -/
theorem c9_route_shuffle_deterministic (sfm : String → Option Shuffle) (e : Edge)
    (keys tags1 tags2 : List String) (m1 m2 : CounterState) (s : Shuffle)
    (hg1 : e.ToVertexType = VertexType.ReduceUDF)
    (hg2 : 1 < e.ToVertexPartitionCount)
    (hs : sfm (shuffleKey e) = some s)
    (hdrop1 : StringSliceContains tags1 MessageTagDrop = false)
    (hdrop2 : StringSliceContains tags2 MessageTagDrop = false)
    (hmatch1 : edgeMatched tags1 e = true)
    (hmatch2 : edgeMatched tags2 e = true) :
    route sfm [e] keys tags1 m1
      = Except.ok
          ([{ ToVertexName := e.To, ToVertexPartitionIdx := Shuffle.Shuffle s keys }], m1)
    ∧ route sfm [e] keys tags2 m2
      = Except.ok
          ([{ ToVertexName := e.To, ToVertexPartitionIdx := Shuffle.Shuffle s keys }], m2) := by
  constructor
  · rw [route_single sfm e keys tags1 m1 hdrop1 hmatch1,
      emitEdge_shuffle sfm keys e m1 s (And.intro hg1 hg2) hs]
  · rw [route_single sfm e keys tags2 m2 hdrop2 hmatch2,
      emitEdge_shuffle sfm keys e m2 s (And.intro hg1 hg2) hs]

/-- Witness for C9: the reduce edge, identical keys, different tags and
different counter states. -/
theorem c9_route_shuffle_deterministic_witness :
    route (buildShuffleFuncMap [edgeReduce]) [edgeReduce] ["k1"] ["a"]
        messagePerPartitionMapInit
      = Except.ok
          ([{ ToVertexName := edgeReduce.To,
              ToVertexPartitionIdx := Shuffle.Shuffle (NewShuffle redName 4) ["k1"] }],
            messagePerPartitionMapInit)
    ∧ route (buildShuffleFuncMap [edgeReduce]) [edgeReduce] ["k1"] ["b"]
        (getVertexPartitionIdxCall messagePerPartitionMapInit redName 2).2
      = Except.ok
          ([{ ToVertexName := edgeReduce.To,
              ToVertexPartitionIdx := Shuffle.Shuffle (NewShuffle redName 4) ["k1"] }],
            (getVertexPartitionIdxCall messagePerPartitionMapInit redName 2).2) :=
  c9_route_shuffle_deterministic (buildShuffleFuncMap [edgeReduce]) edgeReduce ["k1"]
    ["a"] ["b"] messagePerPartitionMapInit
    (getVertexPartitionIdxCall messagePerPartitionMapInit redName 2).2
    (NewShuffle redName 4) rfl (by decide) (by decide) rfl rfl rfl rfl

/-!
Helper lemmas about the lifecycle of Start.
-/

/-- The two backend selector constants are distinct. -/
lemma redis_ne_jetstream : ISBSvcTypeRedis ≠ ISBSvcTypeJetStream := by decide

/-- When the per-partition loop completes, it has started one worker per
input partition, in order. -/
lemma startWorkers_ok_trace (ctor : String → Except String Unit) :
    ∀ ps : List String, (startWorkers ctor ps).1 = Except.ok () →
      (startWorkers ctor ps).2 = ps.map Event.workerStarted := by
  intro ps
  induction ps with
  | nil => intro _; rfl
  | cons p rest ih =>
    intro h
    cases hc : ctor p with
    | error e => simp [startWorkers, hc] at h
    | ok u =>
      simp only [startWorkers, hc] at h ⊢
      simp only [List.map_cons, List.cons.injEq]
      exact ⟨trivial, ih h⟩

/-- A worker is only started for a partition whose forwarder was
constructed successfully. -/
lemma startWorkers_mem (ctor : String → Except String Unit) :
    ∀ (ps : List String) (p : String),
      Event.workerStarted p ∈ (startWorkers ctor ps).2 → ctor p = Except.ok () := by
  intro ps
  induction ps with
  | nil => intro p h; cases h
  | cons q rest ih =>
    intro p h
    cases hc : ctor q with
    | error e => simp [startWorkers, hc] at h
    | ok u =>
      simp only [startWorkers, hc] at h
      rcases List.mem_cons.mp h with he | he
      · cases he; cases u; exact hc
      · exact ih p he

/-- When the per-partition loop completes, every forwarder was
constructed successfully. -/
lemma startWorkers_ok_all (ctor : String → Except String Unit) :
    ∀ ps : List String, (startWorkers ctor ps).1 = Except.ok () →
      ∀ p ∈ ps, ctor p = Except.ok () := by
  intro ps
  induction ps with
  | nil => intro _ p hp; cases hp
  | cons q rest ih =>
    intro h p hp
    cases hc : ctor q with
    | error e => simp [startWorkers, hc] at h
    | ok u =>
      simp only [startWorkers, hc] at h
      rcases List.mem_cons.mp hp with he | he
      · subst he; cases u; exact hc
      · exact ih h p he

/-- A successful backend switch yields exactly the manager, publisher
and store names described by runManagers, runPublishers and
runStores. -/
lemma switchBranch_ok (env : Env) (pms pubs sts : List String)
    (h : switchBranch env = Except.ok (pms, pubs, sts)) :
    pms = runManagers env ∧ pubs = runPublishers env ∧ sts = runStores env := by
  unfold switchBranch at h
  by_cases hr : env.isbSvcType = ISBSvcTypeRedis
  · rw [if_pos hr] at h
    have hj : ¬ (env.isbSvcType = ISBSvcTypeJetStream ∧ env.watermarkDisabled = false) :=
      fun hcon => redis_ne_jetstream (hr.symm.trans hcon.1)
    cases hb : env.buildRedisBuffers with
    | error e => rw [hb] at h; cases h
    | ok u =>
      rw [hb] at h
      simp only [Except.ok.injEq, Prod.mk.injEq] at h
      obtain ⟨h1, h2, h3⟩ := h
      subst h1; subst h2; subst h3
      simp [runManagers, runPublishers, runStores, hj]
  · rw [if_neg hr] at h
    by_cases hjs : env.isbSvcType = ISBSvcTypeJetStream
    · rw [if_pos hjs] at h
      by_cases hw : env.watermarkDisabled
      · rw [if_pos hw] at h
        have hj : ¬ (env.isbSvcType = ISBSvcTypeJetStream ∧ env.watermarkDisabled = false) := by
          intro hcon; rw [hcon.2] at hw; cases hw
        simp only [Except.ok.injEq, Prod.mk.injEq] at h
        obtain ⟨h1, h2, h3⟩ := h
        subst h1; subst h2; subst h3
        simp [runManagers, runPublishers, runStores, hj]
      · rw [if_neg hw] at h
        have hwf : env.watermarkDisabled = false := Bool.not_eq_true _ ▸ eq_false_of_ne_true hw
        cases hpm : env.buildProcessorManagers with
        | error e => rw [hpm] at h; cases h
        | ok pms2 =>
          rw [hpm] at h
          cases hst : env.buildToVertexWatermarkStores with
          | error e => rw [hst] at h; cases h
          | ok sts2 =>
            rw [hst] at h
            cases hjb : env.buildJetStreamBuffers with
            | error e => rw [hjb] at h; cases h
            | ok u =>
              rw [hjb] at h
              simp only [Except.ok.injEq, Prod.mk.injEq] at h
              obtain ⟨h1, h2, h3⟩ := h
              subst h1; subst h2; subst h3
              simp [runManagers, runPublishers, runStores, hjs, hwf, hpm, hst]
    · rw [if_neg hjs] at h; cases h

/-- A successful backend switch means the branch success predicate
holds. -/
lemma switchBranch_ok_branchOk (env : Env) (x : List String × List String × List String)
    (h : switchBranch env = Except.ok x) : branchOk env = true := by
  unfold switchBranch at h
  unfold branchOk
  by_cases hr : env.isbSvcType = ISBSvcTypeRedis
  · rw [if_pos hr] at h
    rw [if_pos hr]
    cases hb : env.buildRedisBuffers with
    | error e => rw [hb] at h; cases h
    | ok u => simp [okB, hb]
  · rw [if_neg hr] at h
    rw [if_neg hr]
    by_cases hjs : env.isbSvcType = ISBSvcTypeJetStream
    · rw [if_pos hjs] at h
      rw [if_pos hjs]
      by_cases hw : env.watermarkDisabled
      · simp [hw]
      · rw [if_neg hw] at h
        cases hpm : env.buildProcessorManagers with
        | error e => rw [hpm] at h; cases h
        | ok pms =>
          rw [hpm] at h
          cases hst : env.buildToVertexWatermarkStores with
          | error e => rw [hst] at h; cases h
          | ok sts =>
            rw [hst] at h
            cases hjb : env.buildJetStreamBuffers with
            | error e => rw [hjb] at h; cases h
            | ok u => simp [okB, hpm, hst, hjb]
    · rw [if_neg hjs] at h; cases h

/-- A successful handler bootstrap means the handler success predicate
holds. -/
lemma handlerInit_ok_handlerOk (env : Env) (stream : Bool)
    (h : handlerInit env stream = Except.ok ()) : handlerOk env stream = true := by
  unfold handlerInit at h
  unfold handlerOk
  cases stream with
  | true =>
    simp only [if_true] at h ⊢
    cases h1 : env.newMapStreamClient with
    | error e => rw [h1] at h; cases h
    | ok u =>
      rw [h1] at h
      cases h2 : env.mapStreamWaitUntilReady with
      | error e => rw [h2] at h; cases h
      | ok u2 => simp [okB, h1, h2]
  | false =>
    simp only [Bool.false_eq_true, if_false] at h ⊢
    cases h1 : env.newMapClient with
    | error e => rw [h1] at h; cases h
    | ok u =>
      rw [h1] at h
      cases h2 : env.mapWaitUntilReady with
      | error e => rw [h2] at h; cases h
      | ok u2 => simp [okB, h1, h2]

/-- Every event of the teardown block is a manager close, a publisher
close, a publisher close error log, or a store close. -/
lemma mem_closePublishers (f : String → Bool) :
    ∀ (ps : List String) (a : Event), a ∈ closePublishers ps f →
      (∃ x, a = Event.publisherClosed x) ∨ (∃ x, a = Event.logPublisherCloseError x) := by
  intro ps
  induction ps with
  | nil => intro a ha; cases ha
  | cons p rest ih =>
    intro a ha
    simp only [closePublishers] at ha
    rcases List.mem_cons.mp ha with he | he
    · exact Or.inl ⟨p, he⟩
    · rcases List.mem_append.mp he with he2 | he2
      · by_cases hf : f p
        · rw [if_pos hf] at he2
          rcases List.mem_singleton.mp he2 with rfl
          exact Or.inr ⟨p, rfl⟩
        · rw [if_neg hf] at he2; cases he2
      · exact ih a he2

/-- Every publisher of the list receives a close event in the publisher
close loop. -/
lemma closePublishers_covers (f : String → Bool) :
    ∀ (ps : List String) (p : String), p ∈ ps →
      Event.publisherClosed p ∈ closePublishers ps f := by
  intro ps
  induction ps with
  | nil => intro p hp; cases hp
  | cons q rest ih =>
    intro p hp
    simp only [closePublishers]
    rcases List.mem_cons.mp hp with he | he
    · subst he; exact List.mem_cons_self _ _
    · exact List.mem_cons_of_mem _ (List.mem_append_right _ (ih p he))

/-- Dropping the log lines from the publisher close loop leaves exactly
one close event per publisher, independently of which closes failed. -/
lemma closePublishers_filter (f : String → Bool) :
    ∀ ps : List String,
      (closePublishers ps f).filter nonLogEvent = ps.map Event.publisherClosed := by
  intro ps
  induction ps with
  | nil => rfl
  | cons p rest ih =>
    simp only [closePublishers, List.filter_cons, List.filter_append]
    by_cases hf : f p
    · simp [hf, nonLogEvent, ih]
    · simp [hf, nonLogEvent, ih]

/-- Case characterization of the teardown events. -/
lemma mem_teardown (pms pubs sts : List String) (f : String → Bool) (a : Event)
    (h : a ∈ teardown pms pubs sts f) :
    (∃ x, a = Event.pmClosed x) ∨ (∃ x, a = Event.publisherClosed x)
    ∨ (∃ x, a = Event.logPublisherCloseError x) ∨ (∃ x, a = Event.storeClosed x) := by
  unfold teardown at h
  rcases List.mem_append.mp h with h2 | h2
  · rcases List.mem_append.mp h2 with h3 | h3
    · obtain ⟨x, _, hx⟩ := List.mem_map.mp h3
      exact Or.inl ⟨x, hx.symm⟩
    · rcases mem_closePublishers f pubs a h3 with h4 | h4
      · exact Or.inr (Or.inl h4)
      · exact Or.inr (Or.inr (Or.inl h4))
  · obtain ⟨x, _, hx⟩ := List.mem_map.mp h2
    exact Or.inr (Or.inr (Or.inr ⟨x, hx.symm⟩))

/-- Success of every provisioning step that precedes the per-partition
loop implies the pre-loop success predicate. -/
lemma preLoopOk_intro (env : Env) (s : Bool)
    (x : List String × List String × List String)
    (h1 : env.newClientPool = Except.ok ())
    (h2 : switchBranch env = Except.ok x)
    (h3 : env.mapUdfStreamEnabled = Except.ok s)
    (h4 : handlerInit env s = Except.ok ()) : preLoopOk env = true := by
  unfold preLoopOk
  rw [h1, h3]
  simp [okB, switchBranch_ok_branchOk env x h2, handlerInit_ok_handlerOk env s h4]

/-- When Start returns nil, every provisioning step succeeded, and the
event trace is exactly the worker starts, the join, and the teardown
blocks in order. -/
lemma Start_ok_parts (env : Env) (f g : String → Bool)
    (h : (Start env f g).1 = Except.ok ()) :
    env.newClientPool = Except.ok ()
    ∧ (∃ x, switchBranch env = Except.ok x)
    ∧ (∃ s, env.mapUdfStreamEnabled = Except.ok s ∧ handlerInit env s = Except.ok ())
    ∧ (startWorkers env.newInterStepDataForward env.ownedBuffers).1 = Except.ok ()
    ∧ env.metricsServerStart = Except.ok ()
    ∧ (Start env f g).2
        = env.ownedBuffers.map Event.workerStarted
          ++ Event.joinedAllWorkers
            :: teardown (runManagers env) (runPublishers env) (runStores env) f := by
  unfold Start at h ⊢
  cases h1 : env.newClientPool with
  | error e => rw [h1] at h; simp at h
  | ok u =>
    rw [h1] at h
    simp only [] at h
    cases h2 : switchBranch env with
    | error e => rw [h2] at h; simp at h
    | ok x =>
      obtain ⟨pms, pubs, sts⟩ := x
      rw [h2] at h
      simp only [] at h
      cases h3 : env.mapUdfStreamEnabled with
      | error e => rw [h3] at h; simp at h
      | ok stream =>
        rw [h3] at h
        simp only [] at h
        cases h4 : handlerInit env stream with
        | error e => rw [h4] at h; simp at h
        | ok u2 =>
          rw [h4] at h
          simp only [] at h
          cases h5 : startWorkers env.newInterStepDataForward env.ownedBuffers with
          | mk w1 tr =>
            rw [h5] at h
            cases w1 with
            | error e => simp at h
            | ok u3 =>
              cases h6 : env.metricsServerStart with
              | error e => rw [h6] at h; simp at h
              | ok u4 =>
                cases u; cases u2; cases u3; cases u4
                obtain ⟨e1, e2, e3⟩ := switchBranch_ok env pms pubs sts h2
                have hfst : (startWorkers env.newInterStepDataForward env.ownedBuffers).1
                    = Except.ok () := by rw [h5]
                have htr :=
                  startWorkers_ok_trace env.newInterStepDataForward env.ownedBuffers hfst
                rw [h5] at htr
                simp only [] at htr
                refine ⟨rfl, ⟨(pms, pubs, sts), rfl⟩, ⟨stream, rfl, h4⟩, rfl, rfl, ?_⟩
                simp only []
                rw [h4]
                simp only []
                rw [htr, e1, e2, e3]

/-- C5 counterexample: with two input partitions and a forwarder
construction failure on the second, Start returns a non nil error, but
the worker of the first partition has already been started, refuting
that every provisioning failure returns before any partition worker has
been started. -/
theorem c5_start_provisioning_failure_cex :
    (Start envForwarderFail (fun _ => false) (fun _ => false)).1
        = Except.error ("failed to construct forwarder")
    ∧ Event.workerStarted partition0
        ∈ (Start envForwarderFail (fun _ => false) (fun _ => false)).2 := by
  constructor
  · rfl
  · have h : (Start envForwarderFail (fun _ => false) (fun _ => false)).2
        = [Event.workerStarted partition0] := rfl
    rw [h]
    exact List.mem_singleton.mpr rfl

/-- C5 (amended: failures before the per-partition loop abort Start
before any worker has started; a per-partition forwarder construction
failure still returns a non nil error and prevents the worker of the
failing and of every later partition, but workers of earlier partitions
have already been started): Start returns nil only when every
provisioning step succeeded, and a worker is only ever started when the
pre-loop provisioning succeeded and the forwarder of its partition was
constructed. -/
theorem c5_start_provisioning_failure (env : Env) (f g : String → Bool) :
    ((Start env f g).1 = Except.ok () →
      preLoopOk env = true
      ∧ (∀ p ∈ env.ownedBuffers, env.newInterStepDataForward p = Except.ok ())
      ∧ env.metricsServerStart = Except.ok ())
    ∧ (∀ p, Event.workerStarted p ∈ (Start env f g).2 →
      preLoopOk env = true ∧ env.newInterStepDataForward p = Except.ok ()) := by
  constructor
  · intro h
    obtain ⟨h1, ⟨x, h2⟩, ⟨s, h3, h4⟩, h5, h6, -⟩ := Start_ok_parts env f g h
    exact ⟨preLoopOk_intro env s x h1 h2 h3 h4,
      startWorkers_ok_all env.newInterStepDataForward env.ownedBuffers h5, h6⟩
  · intro p hp
    unfold Start at hp
    cases h1 : env.newClientPool with
    | error e => rw [h1] at hp; simp at hp
    | ok u =>
      rw [h1] at hp
      simp only [] at hp
      cases h2 : switchBranch env with
      | error e => rw [h2] at hp; simp at hp
      | ok x =>
        obtain ⟨pms, pubs, sts⟩ := x
        rw [h2] at hp
        simp only [] at hp
        cases h3 : env.mapUdfStreamEnabled with
        | error e => rw [h3] at hp; simp at hp
        | ok stream =>
          rw [h3] at hp
          simp only [] at hp
          cases h4 : handlerInit env stream with
          | error e => rw [h4] at hp; simp at hp
          | ok u2 =>
            rw [h4] at hp
            simp only [] at hp
            cases u; cases u2
            have hpre := preLoopOk_intro env stream (pms, pubs, sts) h1 h2 h3 h4
            cases h5 : startWorkers env.newInterStepDataForward env.ownedBuffers with
            | mk w1 tr =>
              rw [h5] at hp
              have htr : tr = (startWorkers env.newInterStepDataForward env.ownedBuffers).2 := by
                rw [h5]
              cases w1 with
              | error e =>
                simp only [] at hp
                rw [htr] at hp
                exact ⟨hpre, startWorkers_mem env.newInterStepDataForward env.ownedBuffers p hp⟩
              | ok u3 =>
                cases h6 : env.metricsServerStart with
                | error e =>
                  rw [h6] at hp
                  simp only [] at hp
                  rw [htr] at hp
                  exact ⟨hpre,
                    startWorkers_mem env.newInterStepDataForward env.ownedBuffers p hp⟩
                | ok u4 =>
                  rw [h6] at hp
                  simp only [] at hp
                  rcases List.mem_append.mp hp with hw | hw
                  · rw [htr] at hw
                    exact ⟨hpre,
                      startWorkers_mem env.newInterStepDataForward env.ownedBuffers p hw⟩
                  · rcases List.mem_cons.mp hw with he | he
                    · exact absurd he (by simp)
                    · rcases mem_teardown pms pubs sts f _ he with
                        ⟨y, hy⟩ | ⟨y, hy⟩ | ⟨y, hy⟩ | ⟨y, hy⟩ <;> simp at hy

/-- Witness for C5: in the all-success single partition environment the
worker of partition p0 is started, and the theorem yields that the
pre-loop provisioning succeeded and the forwarder of p0 was
constructed. -/
theorem c5_start_provisioning_failure_witness :
    preLoopOk envRedisOk = true
    ∧ envRedisOk.newInterStepDataForward partition0 = Except.ok () :=
  (c5_start_provisioning_failure envRedisOk (fun _ => false) (fun _ => false)).2
    partition0 (by decide)

/-- C6: whenever Start returns nil, its event trace is exactly the
worker starts of every input partition, then the join of all partition
workers, then three blocks in order: processor manager closes, watermark
publisher closes (possibly interleaved with close error logs), and
watermark store closes; each block covers every manager, publisher and
store of the run, so the join happens before any close and Start returns
only after every close step. -/
theorem c6_start_shutdown_order (env : Env) (f g : String → Bool)
    (h : (Start env f g).1 = Except.ok ()) :
    ∃ t1 t2 t3,
      (Start env f g).2
        = env.ownedBuffers.map Event.workerStarted
          ++ Event.joinedAllWorkers :: (t1 ++ t2 ++ t3)
      ∧ (∀ a ∈ t1, ∃ x, a = Event.pmClosed x)
      ∧ (∀ a ∈ t2, (∃ x, a = Event.publisherClosed x)
          ∨ (∃ x, a = Event.logPublisherCloseError x))
      ∧ (∀ a ∈ t3, ∃ x, a = Event.storeClosed x)
      ∧ (∀ x ∈ runManagers env, Event.pmClosed x ∈ t1)
      ∧ (∀ x ∈ runPublishers env, Event.publisherClosed x ∈ t2)
      ∧ (∀ x ∈ runStores env, Event.storeClosed x ∈ t3) := by
  obtain ⟨-, -, -, -, -, htr⟩ := Start_ok_parts env f g h
  refine ⟨(runManagers env).map Event.pmClosed, closePublishers (runPublishers env) f,
    (runStores env).map Event.storeClosed, ?_, ?_, ?_, ?_, ?_, ?_, ?_⟩
  · rw [htr]; rfl
  · intro a ha
    obtain ⟨x, -, hx⟩ := List.mem_map.mp ha
    exact ⟨x, hx.symm⟩
  · exact fun a ha => mem_closePublishers f (runPublishers env) a ha
  · intro a ha
    obtain ⟨x, -, hx⟩ := List.mem_map.mp ha
    exact ⟨x, hx.symm⟩
  · exact fun x hx => List.mem_map_of_mem Event.pmClosed hx
  · exact fun x hx => closePublishers_covers f (runPublishers env) x hx
  · exact fun x hx => List.mem_map_of_mem Event.storeClosed hx

/-- Witness for C6: the all-success JetStream environment with one
partition, one manager, one store and its publisher. -/
theorem c6_start_shutdown_order_witness :
    (Start envJetStreamOk (fun _ => false) (fun _ => false)).1 = Except.ok ()
    ∧ ∃ t1 t2 t3,
      (Start envJetStreamOk (fun _ => false) (fun _ => false)).2
        = envJetStreamOk.ownedBuffers.map Event.workerStarted
          ++ Event.joinedAllWorkers :: (t1 ++ t2 ++ t3)
      ∧ (∀ a ∈ t1, ∃ x, a = Event.pmClosed x)
      ∧ (∀ a ∈ t2, (∃ x, a = Event.publisherClosed x)
          ∨ (∃ x, a = Event.logPublisherCloseError x))
      ∧ (∀ a ∈ t3, ∃ x, a = Event.storeClosed x)
      ∧ (∀ x ∈ runManagers envJetStreamOk, Event.pmClosed x ∈ t1)
      ∧ (∀ x ∈ runPublishers envJetStreamOk, Event.publisherClosed x ∈ t2)
      ∧ (∀ x ∈ runStores envJetStreamOk, Event.storeClosed x ∈ t3) :=
  ⟨rfl, c6_start_shutdown_order envJetStreamOk (fun _ => false) (fun _ => false) rfl⟩

/-- C7: the outcome of Start and its event trace with the log lines
removed are independent of which publisher and store closes fail: close
errors during teardown never change the returned value, and every close
step is still attempted. -/
theorem c7_start_teardown_error_independence (env : Env) (f g f2 g2 : String → Bool) :
    (Start env f g).1 = (Start env f2 g2).1
    ∧ (Start env f g).2.filter nonLogEvent = (Start env f2 g2).2.filter nonLogEvent := by
  unfold Start
  cases h1 : env.newClientPool with
  | error e => exact ⟨rfl, rfl⟩
  | ok u =>
    simp only []
    cases h2 : switchBranch env with
    | error e => exact ⟨rfl, rfl⟩
    | ok x =>
      obtain ⟨pms, pubs, sts⟩ := x
      simp only []
      cases h3 : env.mapUdfStreamEnabled with
      | error e => exact ⟨rfl, rfl⟩
      | ok stream =>
        simp only []
        cases h4 : handlerInit env stream with
        | error e => exact ⟨rfl, rfl⟩
        | ok u2 =>
          simp only []
          cases h5 : startWorkers env.newInterStepDataForward env.ownedBuffers with
          | mk w1 tr =>
            cases w1 with
            | error e => exact ⟨rfl, rfl⟩
            | ok u3 =>
              cases h6 : env.metricsServerStart with
              | error e => exact ⟨rfl, rfl⟩
              | ok u4 =>
                refine ⟨rfl, ?_⟩
                simp only [teardown, List.filter_append, List.filter_cons]
                simp [nonLogEvent, closePublishers_filter]
